import Mathlib

/-!
Shallow embedding of `src/bilibili_popular.py` (BilibiliPopularVideoAnalyzer):
a fetch → enrich → format pipeline.  Network responses are modelled as data
(inductive outcome types); dictionaries are modelled as association lists with
Python `dict.get` semantics; Python `str()` of an integer is modelled by an
explicit decimal-digit printer.
-/

namespace Bili

/-- A Python value as it occurs in the analyzer's dictionaries:
either a string (scraped counters, "N/A", tname) or an int (API stats). -/
inductive PyVal where
  | vStr (s : String)
  | vInt (n : Int)
  deriving DecidableEq, Repr

/-- Decimal digits of a natural number, fuel-structural so it reduces in the
kernel.  `natDigitsAux (n+1) n` is total for `n`. -/
def natDigitsAux : Nat → Nat → List Char
  | 0, _ => []
  | fuel + 1, n =>
      if n < 10 then [Nat.digitChar n]
      else natDigitsAux fuel (n / 10) ++ [Nat.digitChar (n % 10)]

/-- Python `str(n)` for a natural number, as a character list. -/
def natDigits (n : Nat) : List Char := natDigitsAux (n + 1) n

/-- Python `str(n)` for a natural number. -/
def pyNatStr (n : Nat) : String := ⟨natDigits n⟩

/-- Python `str(i)` for an int. -/
def pyIntStr (i : Int) : String :=
  if i < 0 then ⟨'-' :: natDigits i.natAbs⟩ else pyNatStr i.natAbs

/-- Python `str(value)` for a dictionary value. -/
def pyValStr : PyVal → String
  | .vStr s => s
  | .vInt n => pyIntStr n

/-- A Python dict with string keys, as an association list; later entries in
the list shadow earlier ones is NOT needed: we keep keys unique per dict and
model `{**a, **b}` by putting `b` first for lookup. -/
abbrev PyDict := List (String × PyVal)

/-- `d[k]` as an option: first binding for `k`. -/
def dictFind (d : PyDict) (k : String) : Option PyVal :=
  (d.find? (fun kv => kv.1 = k)).map (fun kv => kv.2)

/-- Python `d.get(k, default)`. -/
def pyGet (d : PyDict) (k : String) (dflt : PyVal) : PyVal :=
  (dictFind d k).getD dflt

/-- Python `{**a, **b}`: keys of `b` win, all keys of both present. -/
def dictMerge (a b : PyDict) : PyDict := b ++ a

/-! ## Per-item sub-fetch outcomes

The two detail fetches are network calls; their observable outcomes are
modelled as data.  The scrape fetch either raises (exception), matches no
pattern, or matches one pattern yielding six digit-group strings (already
comma-stripped, as in `match.group(i).replace(',', '')`).  The API fetch
either fails (exception or non-zero code, both return `{}`), or succeeds
with the fields of `data` / `data.stat`; a missing field is `none` and the
code's inner `.get(key, default)` applies the default. -/

/-- Outcome of the GET + regex step of `_get_video_stats_from_web`. -/
inductive WebOutcome where
  | fail
  | noMatch
  | matched (play danmaku like coin favorite share : String)
  deriving DecidableEq, Repr

/-- Outcome of the GET + JSON step of `_get_video_stats_from_api`. -/
inductive ApiOutcome where
  | fail
  | ok (view danmaku like coin favorite share reply : Option Int)
       (duration pubdate cid : Option Int) (tname : Option String)
  deriving DecidableEq, Repr

/-- `_get_video_stats_from_web`: on a regex match, the six comma-stripped
digit groups; on no match or any exception, all six keys map to "N/A".
Either way all six keys are present. -/
def _get_video_stats_from_web : WebOutcome → PyDict
  | .matched p d l c f s =>
      [("play_count", .vStr p), ("danmaku_count", .vStr d),
       ("like_count", .vStr l), ("coin_count", .vStr c),
       ("favorite_count", .vStr f), ("share_count", .vStr s)]
  | _ =>
      [("play_count", .vStr "N/A"), ("danmaku_count", .vStr "N/A"),
       ("like_count", .vStr "N/A"), ("coin_count", .vStr "N/A"),
       ("favorite_count", .vStr "N/A"), ("share_count", .vStr "N/A")]

/-- `_get_video_stats_from_api`: on `code == 0`, the eleven keys with the
code's inner defaults (`stat.get(k, 0)`, `data.get(k, 0)`,
`data.get('tname', '')`); on non-zero code or exception, the empty dict. -/
def _get_video_stats_from_api : ApiOutcome → PyDict
  | .fail => []
  | .ok view danmaku like coin favorite share reply duration pubdate cid tname =>
      [("view", .vInt (view.getD 0)), ("danmaku", .vInt (danmaku.getD 0)),
       ("like", .vInt (like.getD 0)), ("coin", .vInt (coin.getD 0)),
       ("favorite", .vInt (favorite.getD 0)), ("share", .vInt (share.getD 0)),
       ("reply", .vInt (reply.getD 0)), ("duration", .vInt (duration.getD 0)),
       ("pubdate", .vInt (pubdate.getD 0)), ("cid", .vInt (cid.getD 0)),
       ("tname", .vStr (tname.getD ""))]

/-- `get_video_details`: `{**stats, **api_data}`. -/
def get_video_details (w : WebOutcome) (a : ApiOutcome) : PyDict :=
  dictMerge (_get_video_stats_from_web w) (_get_video_stats_from_api a)

/-! ## Formatting helpers -/

/-- Width-2 zero padding, Python `f"{n:02d}"`. -/
def pad2 (n : Int) : String :=
  if 0 ≤ n ∧ n < 10 then "0" ++ pyIntStr n else pyIntStr n

/-- `format_duration`: 0 → "N/A"; otherwise `divmod` by 60 twice and render
`H:MM:SS` when hours > 0 else `M:SS` (Python divmod = floor division). -/
def format_duration (seconds : Int) : String :=
  if seconds = 0 then "N/A"
  else
    let minutes := seconds.fdiv 60
    let secs := seconds.fmod 60
    let hours := minutes.fdiv 60
    let mins := minutes.fmod 60
    if hours > 0 then pyIntStr hours ++ ":" ++ pad2 mins ++ ":" ++ pad2 secs
    else pyIntStr mins ++ ":" ++ pad2 secs

/-- `format_timestamp`: 0 → "未知"; otherwise strftime of the local datetime,
which depends on the ambient clock/timezone and is passed in as `fmt`. -/
def format_timestamp (fmt : Int → String) (timestamp : Int) : String :=
  if timestamp = 0 then "未知" else fmt timestamp

/-- Insert a comma every three digits counting from the right, on a
digit list given most-significant first (Python `f"{num:,}"` grouping). -/
def commaGroup (ds : List Char) : List Char :=
  (((ds.reverse.toChunks 3).map List.reverse).intersperse [',']).reverse.flatten

/-- Python `int(s)` on a string of decimal digits. -/
def digitsToNat (s : String) : Nat :=
  s.data.foldl (fun a c => a * 10 + (c.toNat - 48)) 0

/-- Python `s.isdigit()` restricted to ASCII digits: nonempty and all digits
(the strings reaching this test are ASCII). -/
def isDigitStr (s : String) : Bool :=
  !s.data.isEmpty && s.data.all (fun c => c.isDigit)

/-- Python `int(x)` as used after an `isdigit` filter: ints pass through,
digit strings parse; other cases cannot reach the call sites modelled here. -/
def pyToIntVal : PyVal → Int
  | .vInt n => n
  | .vStr s => (digitsToNat s : Int)

/-- `format_number`: "N/A" stays "N/A"; a value convertible by `int()` is
comma-grouped; anything else is `str(number)`.  `int()` succeeds on ints and
on (optionally sign-free) digit strings; on other strings it raises and the
bare `except` returns `str(number)`. -/
def format_number (v : PyVal) : String :=
  match v with
  | .vStr s => if s = "N/A" then "N/A"
      else if isDigitStr s then ⟨commaGroup (natDigits (digitsToNat s))⟩
      else s
  | .vInt n => if n < 0 then ⟨'-' :: commaGroup (natDigits n.natAbs)⟩
      else ⟨commaGroup (natDigits n.natAbs)⟩

/-! ## Raw list items and the enriched record -/

/-- `owner` sub-object of a listing entry (always present with these keys). -/
structure Owner where
  name : String
  mid : Int
  face : String
  deriving DecidableEq, Repr

/-- One entry of `data.list` from the popular endpoint.  Keys read with
`video[k]` are mandatory; keys read with `video.get(k, '')` are optional. -/
structure RawListItem where
  title : String
  bvid : String
  owner : Owner
  desc : Option String
  short_link_v2 : Option String
  pic : Option String
  first_frame : Option String
  pub_location : Option String
  deriving DecidableEq, Repr

/-- Ambient run state: `datetime.now()` rendered for `fetch_time`, and the
strftime rendering of nonzero epoch timestamps (clock/timezone dependent). -/
structure PyEnv where
  now : String
  fmtEpoch : Int → String

/-- The merged per-video dict built in `run_analysis` (lines 385-409). -/
structure EnrichedRecord where
  rank : Nat
  title : String
  desc : String
  bvid : String
  short_link : String
  pic : String
  first_frame : String
  pub_location : String
  owner_name : String
  owner_mid : Int
  owner_face : String
  play_count : PyVal
  danmaku_count : PyVal
  like_count : PyVal
  coin_count : PyVal
  favorite_count : PyVal
  share_count : PyVal
  reply_count : PyVal
  duration : Int
  duration_formatted : String
  publish_time : String
  tname : PyVal
  fetch_time : String
  deriving DecidableEq, Repr

/-- `details.get('duration', 0)` etc. feed ints into arithmetic; in every
reachable state the stored value is an int (the API dict only stores ints
under these keys), so the string branch is dead. -/
def pyAsInt : PyVal → Int
  | .vInt n => n
  | .vStr _ => 0

/-- The enrichment step of `run_analysis`: build one `EnrichedRecord` from a
listed item, its 1-based index `i`, and the outcomes of the two sub-fetches.
Mirrors the dict literal at lines 385-409, including every `.get` chain. -/
def build_enriched (env : PyEnv) (i : Nat) (video : RawListItem)
    (w : WebOutcome) (a : ApiOutcome) : EnrichedRecord :=
  let details := get_video_details w a
  { rank := i
    title := video.title
    desc := video.desc.getD ""
    bvid := video.bvid
    short_link := video.short_link_v2.getD ""
    pic := video.pic.getD ""
    first_frame := video.first_frame.getD ""
    pub_location := video.pub_location.getD ""
    owner_name := video.owner.name
    owner_mid := video.owner.mid
    owner_face := video.owner.face
    play_count := pyGet details "play_count" (pyGet details "view" (.vStr "N/A"))
    danmaku_count := pyGet details "danmaku_count" (pyGet details "danmaku" (.vStr "N/A"))
    like_count := pyGet details "like_count" (pyGet details "like" (.vStr "N/A"))
    coin_count := pyGet details "coin_count" (pyGet details "coin" (.vStr "N/A"))
    favorite_count := pyGet details "favorite_count" (pyGet details "favorite" (.vStr "N/A"))
    share_count := pyGet details "share_count" (pyGet details "share" (.vStr "N/A"))
    reply_count := pyGet details "reply" (.vStr "N/A")
    duration := pyAsInt (pyGet details "duration" (.vInt 0))
    duration_formatted := format_duration (pyAsInt (pyGet details "duration" (.vInt 0)))
    publish_time := format_timestamp env.fmtEpoch (pyAsInt (pyGet details "pubdate" (.vInt 0)))
    tname := pyGet details "tname" (.vStr "未知")
    fetch_time := env.now }

/-- The `for i, video in enumerate(videos, 1)` loop of `run_analysis`,
with `outc` giving each index's pair of sub-fetch outcomes.  Every listed
item yields exactly one appended record. -/
def enrich_loop (env : PyEnv) (outc : Nat → WebOutcome × ApiOutcome) :
    List RawListItem → Nat → List EnrichedRecord
  | [], _ => []
  | v :: vs, i =>
      build_enriched env i v (outc i).1 (outc i).2 :: enrich_loop env outc vs (i + 1)

/-- `run_analysis`' enriched list: enumeration starts at 1. -/
def enriched_videos (env : PyEnv) (outc : Nat → WebOutcome × ApiOutcome)
    (videos : List RawListItem) : List EnrichedRecord :=
  enrich_loop env outc videos 1

/-! ## Pagination (`get_popular_videos`) -/

/-- Observable outcome of one listing-page GET: a transport/parse error, or
a decoded envelope `{code, message, data.list}`. -/
inductive PageResult where
  | netErr
  | resp (code : Int) (message : String) (list : List RawListItem)

/-- Items of a page as seen by the loop body (empty on error). -/
def pageItems (pages : Nat → PageResult) (p : Nat) : List RawListItem :=
  match pages p with
  | .netErr => []
  | .resp _ _ l => l

/-- `get_popular_videos`: iterate pages `page_number, page_number+1, ...` for
at most `max_pages` pages; stop (keeping what was accumulated) on a network
error, on `code != 0`, or on an empty list; otherwise extend and continue.
`page_size` only parameterizes the request URL. -/
def get_popular_videos (pages : Nat → PageResult) (_page_size : Nat) :
    Nat → Nat → List RawListItem
  | _, 0 => []
  | page_number, max_pages + 1 =>
      match pages page_number with
      | .netErr => []
      | .resp code _ l =>
          if code ≠ 0 then []
          else if l = [] then []
          else l ++ get_popular_videos pages _page_size (page_number + 1) max_pages

/-! ## CSV writing (`csv.DictWriter`, excel dialect) and re-parsing

`csv.writer` with the default dialect: delimiter `,`, quotechar `"`,
QUOTE_MINIMAL (quote a field iff it contains the delimiter, the quotechar,
or a line-terminator character), doubled quotechars inside quoted fields,
row terminator `\r\n`.  The parser below is the inverse reader. -/

/-- QUOTE_MINIMAL test. -/
def needsQuote (f : List Char) : Bool :=
  f.any (fun c => c = ',' || c = '"' || c = '\r' || c = '\n')

/-- Double every quotechar. -/
def escInner (f : List Char) : List Char :=
  f.flatMap (fun c => if c = '"' then ['"', '"'] else [c])

/-- Render one field, quoting if needed. -/
def renderField (f : List Char) : List Char :=
  if needsQuote f then '"' :: (escInner f ++ ['"']) else f

/-- Render one row: fields joined by the delimiter. -/
def renderRow : List (List Char) → List Char
  | [] => []
  | [f] => renderField f
  | f :: fs => renderField f ++ ',' :: renderRow fs

/-- Render a file: each row followed by `\r\n`. -/
def renderFile (rows : List (List (List Char))) : List Char :=
  (rows.map (fun r => renderRow r ++ ['\r', '\n'])).flatten

/-- Read one field starting inside quotes.  Returns the field, the rest of
the input after the field's delimiter or row terminator, and whether the
row ended. -/
def pQuo : List Char → List Char × List Char × Bool
  | [] => ([], [], true)
  | c :: cs =>
      if c = '"' then
        match cs with
        | [] => ([], [], true)
        | c2 :: cs2 =>
            if c2 = '"' then
              let r := pQuo cs2
              ('"' :: r.1, r.2)
            else if c2 = ',' then ([], cs2, false)
            else if c2 = '\r' then
              match cs2 with
              | '\n' :: cs3 => ([], cs3, true)
              | _ => ([], cs2, true)
            else ([], cs2, true)
      else
        let r := pQuo cs
        (c :: r.1, r.2)

/-- Read one field starting outside quotes. -/
def pField : List Char → List Char × List Char × Bool
  | [] => ([], [], true)
  | c :: cs =>
      if c = '"' then pQuo cs
      else if c = ',' then ([], cs, false)
      else if c = '\r' then
        match cs with
        | '\n' :: cs2 => ([], cs2, true)
        | _ =>
            let r := pField cs
            (c :: r.1, r.2)
      else
        let r := pField cs
        (c :: r.1, r.2)

/-- Read one row (a sequence of fields up to the row terminator). -/
def pRow (fuel : Nat) (cs : List Char) : List (List Char) × List Char :=
  match fuel with
  | 0 => ([], cs)
  | fuel + 1 =>
      let r := pField cs
      if r.2.2 then ([r.1], r.2.1)
      else
        let rest := pRow fuel r.2.1
        (r.1 :: rest.1, rest.2)

/-- Read all rows. -/
def pFile (fuel : Nat) (cs : List Char) : List (List (List Char)) :=
  match fuel with
  | 0 => []
  | fuel + 1 =>
      if cs.isEmpty then []
      else
        let r := pRow fuel cs
        r.1 :: pFile fuel r.2

/-- Parse a CSV file (the input's length is always enough fuel). -/
def parseCSV (cs : List Char) : List (List (List Char)) :=
  pFile cs.length cs

/-- The fixed column subset of `export_to_csv` (`export_fields`). -/
def export_fields : List String :=
  ["rank", "title", "owner_name", "play_count", "danmaku_count",
   "like_count", "coin_count", "favorite_count", "share_count",
   "reply_count", "duration_formatted", "publish_time", "bvid",
   "pub_location", "tname"]

/-- The row `csv.DictWriter` writes for one record: `str()` of each of the
fifteen projected values, in `export_fields` order. -/
def csvRow (v : EnrichedRecord) : List (List Char) :=
  [(pyNatStr v.rank).data, v.title.data, v.owner_name.data,
   (pyValStr v.play_count).data, (pyValStr v.danmaku_count).data,
   (pyValStr v.like_count).data, (pyValStr v.coin_count).data,
   (pyValStr v.favorite_count).data, (pyValStr v.share_count).data,
   (pyValStr v.reply_count).data, v.duration_formatted.data,
   v.publish_time.data, v.bvid.data, v.pub_location.data,
   (pyValStr v.tname).data]

/-- `export_to_csv`: with an empty list nothing is written (no file, no
header); otherwise the file is the header row followed by one row per
record.  The result is the file's character content, `none` when no file
is created. -/
def export_to_csv (videos : List EnrichedRecord) : Option (List Char) :=
  if videos = [] then none
  else some (renderFile ((export_fields.map String.data) :: videos.map csvRow))

/-! ## Markdown report summary block (`generate_markdown_report`) -/

/-- `valid_plays`: `int(v['play_count'])` for the records whose
`str(play_count)` passes `isdigit()`. -/
def valid_plays (videos : List EnrichedRecord) : List Int :=
  (videos.filter (fun v => isDigitStr (pyValStr v.play_count))).map
    (fun v => pyToIntVal v.play_count)

/-- The four displayed summary values (total, average, max, min), exactly as
the report writes them: `format_number(total)` and `format_number(avg)` are
written unconditionally (with 0 when no record qualifies), while max and min
fall back to the literal "N/A". -/
def summary_block (videos : List EnrichedRecord) :
    String × String × String × String :=
  let plays := valid_plays videos
  let total := plays.foldl (· + ·) 0
  let avg := if plays = [] then 0 else total.fdiv plays.length
  (format_number (.vInt total),
   format_number (.vInt avg),
   match plays with
   | [] => "N/A"
   | p :: ps => format_number (.vInt (ps.foldl max p)),
   match plays with
   | [] => "N/A"
   | p :: ps => format_number (.vInt (ps.foldl min p)))

/-! ## Sample inputs for concrete evaluations -/

/-- A fixed ambient state. -/
def env0 : PyEnv :=
  { now := "2026-10-12 00:00:00", fmtEpoch := fun _ => "2020-01-01 00:00:00" }

/-- A minimal listing entry. -/
def item0 : RawListItem :=
  { title := "t", bvid := "BV1xx411c7mD", owner := { name := "up", mid := 7, face := "f" },
    desc := none, short_link_v2 := none, pic := none, first_frame := none,
    pub_location := none }

/-- An API success whose `view` is 4000 (other fields arbitrary but fixed). -/
def apiOk4000 : ApiOutcome :=
  .ok (some 4000) (some 1) (some 2) (some 3) (some 4) (some 5) (some 6)
    (some 65) (some 1700000000) (some 9) (some "游戏")

/-- An enriched record differing from `build_enriched env0 1 item0 .fail .fail`
only in its play count, for exercising the report summary. -/
def recPlay (p : PyVal) : EnrichedRecord :=
  { build_enriched env0 1 item0 .fail .fail with play_count := p }

end Bili

namespace Bili

/-- The scrape sub-fetch's value for the play counter (and analogously for
the other five): the matched digit group, else the "N/A" sentinel. -/
def webCounter (sel : String × String × String × String × String × String →
    String) : WebOutcome → PyVal
  | .matched p d l c f s => .vStr (sel (p, d, l, c, f, s))
  | _ => .vStr "N/A"

/-- C1, counterexample: with scrape outcome "no pattern matched" (all six
scrape values "N/A") and a structured fetch reporting view = 4000, the
merged play count is the string "N/A", not 4000: the `.get` fallback fires
only on a missing key and the scrape dict always contains the key. -/
theorem c1_scrape_na_not_replaced :
    (build_enriched env0 1 item0 .noMatch apiOk4000).play_count = .vStr "N/A" ∧
    (build_enriched env0 1 item0 .noMatch apiOk4000).play_count ≠ .vInt 4000 := by
  constructor <;> decide

/-- C1 (amended): each of the six merged counters always equals the scrape
sub-fetch's value — the matched digit group if a pattern matched, otherwise
the "N/A" sentinel — regardless of the structured sub-fetch's outcome; the
structured fallback in the `.get` chain is dead because the scrape dict
always carries all six keys. -/
theorem c1_counters_are_scrape_values (env : PyEnv) (i : Nat)
    (v : RawListItem) (w : WebOutcome) (a : ApiOutcome) :
    (build_enriched env i v w a).play_count = webCounter (fun t => t.1) w ∧
    (build_enriched env i v w a).danmaku_count = webCounter (fun t => t.2.1) w ∧
    (build_enriched env i v w a).like_count = webCounter (fun t => t.2.2.1) w ∧
    (build_enriched env i v w a).coin_count = webCounter (fun t => t.2.2.2.1) w ∧
    (build_enriched env i v w a).favorite_count = webCounter (fun t => t.2.2.2.2.1) w ∧
    (build_enriched env i v w a).share_count = webCounter (fun t => t.2.2.2.2.2) w := by
  cases w <;> cases a <;>
    simp [build_enriched, get_video_details, dictMerge, _get_video_stats_from_web,
      _get_video_stats_from_api, pyGet, dictFind, List.find?, webCounter]

/-- C3: enrichment is total.  When both sub-fetches fail, the record is still
fully built: identity fields copied from the raw item, all six counters and
the reply count "N/A", duration 0 with formatted duration "N/A", publish
time and category "未知" (unknown), fetch time from the clock. -/
theorem c3_enrich_total_degraded (env : PyEnv) (i : Nat) (v : RawListItem) :
    build_enriched env i v .fail .fail =
      { rank := i, title := v.title, desc := v.desc.getD "", bvid := v.bvid,
        short_link := v.short_link_v2.getD "", pic := v.pic.getD "",
        first_frame := v.first_frame.getD "",
        pub_location := v.pub_location.getD "",
        owner_name := v.owner.name, owner_mid := v.owner.mid,
        owner_face := v.owner.face,
        play_count := .vStr "N/A", danmaku_count := .vStr "N/A",
        like_count := .vStr "N/A", coin_count := .vStr "N/A",
        favorite_count := .vStr "N/A", share_count := .vStr "N/A",
        reply_count := .vStr "N/A", duration := 0,
        duration_formatted := "N/A", publish_time := "未知",
        tname := .vStr "未知", fetch_time := env.now } := by
  rfl

/-- C8, counterexample: when the structured sub-fetch fails, the reply count
defaults to the string "N/A", not to 0. -/
theorem c8_reply_defaults_na :
    (build_enriched env0 1 item0 .noMatch .fail).reply_count = .vStr "N/A" ∧
    (build_enriched env0 1 item0 .noMatch .fail).reply_count ≠ .vInt 0 := by
  constructor <;> decide

/-- C8 (amended): reply count, duration, publish time and category name are
read only from the structured sub-fetch's dict (the scrape outcome never
affects them), and when the structured sub-fetch fails they default to
"N/A" (reply count), 0 (duration, hence formatted duration "N/A"), and the
"未知" (unknown) sentinel (publish time, category name). -/
theorem c8_api_only_fields (env : PyEnv) (i : Nat) (v : RawListItem)
    (w : WebOutcome) (a : ApiOutcome) :
    ((build_enriched env i v w a).reply_count =
        pyGet (_get_video_stats_from_api a) "reply" (.vStr "N/A") ∧
      (build_enriched env i v w a).duration =
        pyAsInt (pyGet (_get_video_stats_from_api a) "duration" (.vInt 0)) ∧
      (build_enriched env i v w a).publish_time =
        format_timestamp env.fmtEpoch
          (pyAsInt (pyGet (_get_video_stats_from_api a) "pubdate" (.vInt 0))) ∧
      (build_enriched env i v w a).tname =
        pyGet (_get_video_stats_from_api a) "tname" (.vStr "未知")) ∧
    ((build_enriched env i v w .fail).reply_count = .vStr "N/A" ∧
      (build_enriched env i v w .fail).duration = 0 ∧
      (build_enriched env i v w .fail).duration_formatted = "N/A" ∧
      (build_enriched env i v w .fail).publish_time = "未知" ∧
      (build_enriched env i v w .fail).tname = .vStr "未知") := by
  constructor
  · cases w <;> cases a <;>
      simp [build_enriched, get_video_details, dictMerge, _get_video_stats_from_web,
        _get_video_stats_from_api, pyGet, dictFind, List.find?, format_timestamp]
  · cases w <;>
      simp [build_enriched, get_video_details, dictMerge, _get_video_stats_from_web,
        _get_video_stats_from_api, pyGet, dictFind, List.find?, format_timestamp,
        pyAsInt, format_duration]

/-- The enrichment loop assigns ranks counting up from its start index. -/
theorem enrich_loop_ranks (env : PyEnv) (outc : Nat → WebOutcome × ApiOutcome)
    (vs : List RawListItem) (i : Nat) :
    (enrich_loop env outc vs i).map EnrichedRecord.rank =
      List.range' i vs.length := by
  induction vs generalizing i with
  | nil => rfl
  | cons v vs ih => simp [enrich_loop, build_enriched, List.range'_succ, ih]

/-- C2: a run that lists N items yields exactly N enriched records whose
ranks are exactly 1..N in order, whatever the per-item sub-fetch outcomes
are; no record is dropped. -/
theorem c2_ranks_complete (env : PyEnv) (outc : Nat → WebOutcome × ApiOutcome)
    (videos : List RawListItem) :
    (enriched_videos env outc videos).length = videos.length ∧
    (enriched_videos env outc videos).map EnrichedRecord.rank =
      List.range' 1 videos.length := by
  have h := enrich_loop_ranks env outc videos 1
  refine ⟨?_, h⟩
  have := congrArg List.length h
  simpa using this

/-- C9: `format_duration 0` is "N/A"; below one hour the result is
`M:SS` (minutes unpadded, seconds zero-padded to two digits); from one hour
on it is `H:MM:SS`; in particular 65 ↦ "1:05" and 3665 ↦ "1:01:05". -/
theorem c9_format_duration :
    format_duration 0 = "N/A" ∧
    (∀ s : Int, 0 < s → s < 3600 →
      format_duration s = pyIntStr (s.fdiv 60) ++ ":" ++ pad2 (s.fmod 60)) ∧
    (∀ s : Int, 3600 ≤ s →
      format_duration s = pyIntStr (s.fdiv 3600) ++ ":" ++
        pad2 ((s.fdiv 60).fmod 60) ++ ":" ++ pad2 (s.fmod 60)) ∧
    format_duration 65 = "1:05" ∧ format_duration 3665 = "1:01:05" := by
  have h60 : (0 : Int) ≤ 60 := by norm_num
  refine ⟨rfl, ?_, ?_, by decide, by decide⟩
  · intro s h1 h2
    simp only [format_duration, Int.fdiv_eq_ediv _ h60, Int.fmod_eq_emod _ h60]
    rw [if_neg (by omega : ¬ s = 0), if_neg (by omega : ¬ s / 60 / 60 > 0)]
    rw [(by omega : s / 60 % 60 = s / 60)]
  · intro s h1
    have h36 : (0 : Int) ≤ 3600 := by norm_num
    simp only [format_duration, Int.fdiv_eq_ediv _ h60, Int.fdiv_eq_ediv _ h36,
      Int.fmod_eq_emod _ h60]
    rw [if_neg (by omega : ¬ s = 0), if_pos (by omega : s / 60 / 60 > 0)]
    rw [(by omega : s / 60 / 60 = s / 3600)]

/-- C9 witness: the two general clauses instantiated at 65 and 3665. -/
theorem c9_format_duration_witness :
    format_duration 65 = pyIntStr ((65 : Int).fdiv 60) ++ ":" ++
      pad2 ((65 : Int).fmod 60) ∧
    format_duration 3665 = pyIntStr ((3665 : Int).fdiv 3600) ++ ":" ++
      pad2 (((3665 : Int).fdiv 60).fmod 60) ++ ":" ++ pad2 ((3665 : Int).fmod 60) :=
  ⟨c9_format_duration.2.1 65 (by norm_num) (by norm_num),
   c9_format_duration.2.2.1 3665 (by norm_num)⟩

/-- C5: if the pages before index `k` (relative to the start page) all return
success envelopes with nonempty lists and page `k` returns a non-success
code, the fetcher returns exactly the concatenation of the earlier pages'
item lists — nothing lost, nothing duplicated, nothing raised. -/
theorem c5_stop_on_error_code (pages : Nat → PageResult) (ps pn mp k : Nat)
    (lst : Nat → List RawListItem) (msg : Nat → String)
    (c : Int) (m : String) (l : List RawListItem)
    (hk : k < mp)
    (hpre : ∀ j, j < k → pages (pn + j) = .resp 0 (msg j) (lst j) ∧ lst j ≠ [])
    (herr : pages (pn + k) = .resp c m l) (hc : c ≠ 0) :
    get_popular_videos pages ps pn mp = ((List.range k).map lst).flatten := by
  induction k generalizing pn mp lst msg with
  | zero =>
      obtain ⟨mp', rfl⟩ : ∃ mp', mp = mp' + 1 := ⟨mp - 1, by omega⟩
      simp only [Nat.add_zero] at herr
      simp [get_popular_videos, herr, hc]
  | succ k ih =>
      obtain ⟨mp', rfl⟩ : ∃ mp', mp = mp' + 1 := ⟨mp - 1, by omega⟩
      obtain ⟨h0, h0ne⟩ := hpre 0 (Nat.succ_pos k)
      simp only [Nat.add_zero] at h0
      have step : get_popular_videos pages ps pn (mp' + 1) =
          lst 0 ++ get_popular_videos pages ps (pn + 1) mp' := by
        simp [get_popular_videos, h0, h0ne]
      have ihis := ih (pn + 1) mp' (fun j => lst (j + 1)) (fun j => msg (j + 1))
        (by omega)
        (fun j hj => by
          have := hpre (j + 1) (by omega)
          simpa [show pn + 1 + j = pn + (j + 1) by omega] using this)
        (by simpa [show pn + 1 + k = pn + (k + 1) by omega] using herr)
      rw [step, ihis, List.range_succ_eq_map]
      simp [List.map_map, Function.comp_def]

/-- The fetcher's output is always the concatenation, in fetch order, of the
item lists of some number `n ≤ max_pages` of consecutive pages starting at
the start page. -/
theorem get_popular_is_page_concat (pages : Nat → PageResult) (ps : Nat) :
    ∀ mp pn, ∃ n ≤ mp,
      get_popular_videos pages ps pn mp =
        ((List.range' pn n).map (pageItems pages)).flatten := by
  intro mp
  induction mp with
  | zero => exact fun pn => ⟨0, le_refl 0, rfl⟩
  | succ mp ih =>
      intro pn
      match hp : pages pn with
      | .netErr => exact ⟨0, by omega, by simp [get_popular_videos, hp]⟩
      | .resp c m l =>
          by_cases hc : c = 0
          · by_cases hl : l = []
            · exact ⟨0, by omega, by simp [get_popular_videos, hp, hc, hl]⟩
            · obtain ⟨n, hn, heq⟩ := ih (pn + 1)
              refine ⟨n + 1, by omega, ?_⟩
              have : pageItems pages pn = l := by simp [pageItems, hp]
              simp [get_popular_videos, hp, hc, hl, heq, List.range'_succ, this]
          · exact ⟨0, by omega, by simp [get_popular_videos, hp, hc]⟩

/-- C6: for page size 1..100, start page ≥ 1, max pages ≥ 1, when every
page's item list has at most `page_size` entries the result has at most
`page_size * max_pages` entries, and the result is exactly the concatenation
of the consumed pages' lists in fetch order (each page's order kept). -/
theorem c6_length_and_order (pages : Nat → PageResult) (ps pn mp : Nat)
    (h1 : 1 ≤ ps) (h2 : ps ≤ 100) (h3 : 1 ≤ pn) (h4 : 1 ≤ mp)
    (hlen : ∀ p, (pageItems pages p).length ≤ ps) :
    (get_popular_videos pages ps pn mp).length ≤ ps * mp ∧
    ∃ n ≤ mp, get_popular_videos pages ps pn mp =
      ((List.range' pn n).map (pageItems pages)).flatten := by
  obtain ⟨n, hn, heq⟩ := get_popular_is_page_concat pages ps mp pn
  refine ⟨?_, n, hn, heq⟩
  rw [heq]
  calc (((List.range' pn n).map (pageItems pages)).flatten).length
      = (((List.range' pn n).map (pageItems pages)).map List.length).sum := by
        simp
    _ ≤ (((List.range' pn n).map (pageItems pages)).map List.length).length * ps := by
        apply List.sum_le_card_nsmul
        intro x hx
        simp only [List.mem_map] at hx
        obtain ⟨y, ⟨p, _, rfl⟩, rfl⟩ := hx
        exact hlen p
    _ = n * ps := by simp
    _ ≤ mp * ps := Nat.mul_le_mul_right ps hn
    _ = ps * mp := Nat.mul_comm mp ps

/-! ## CSV round-trip lemmas -/

theorem escInner_cons_append (c : Char) (f t : List Char) :
    escInner (c :: f) ++ t =
      (if c = '"' then '"' :: '"' :: (escInner f ++ t)
       else c :: (escInner f ++ t)) := by
  by_cases h : c = '"' <;> simp [escInner, h]

theorem pQuo_esc (f rest : List Char) :
    pQuo (escInner f ++ '"' :: ',' :: rest) = (f, rest, false) := by
  induction f with
  | nil => simp [escInner, pQuo]
  | cons c f ih =>
      rw [escInner_cons_append]
      by_cases h : c = '"'
      · rw [if_pos h, h, pQuo.eq_def]
        simp [ih]
      · rw [if_neg h, pQuo.eq_def]
        simp [h, ih]

theorem pQuo_esc_end (f rest : List Char) :
    pQuo (escInner f ++ '"' :: '\r' :: '\n' :: rest) = (f, rest, true) := by
  induction f with
  | nil => simp [escInner, pQuo]
  | cons c f ih =>
      rw [escInner_cons_append]
      by_cases h : c = '"'
      · rw [if_pos h, h, pQuo.eq_def]
        simp [ih]
      · rw [if_neg h, pQuo.eq_def]
        simp [h, ih]

theorem needsQuote_cons (c : Char) (f : List Char) (h : needsQuote (c :: f) = false) :
    c ≠ ',' ∧ c ≠ '"' ∧ c ≠ '\r' ∧ c ≠ '\n' ∧ needsQuote f = false := by
  simp only [needsQuote, List.any_cons, Bool.or_eq_false_iff,
    decide_eq_false_iff_not] at h ⊢
  exact ⟨h.1.1.1.1, h.1.1.1.2, h.1.1.2, h.1.2, h.2⟩

theorem pField_plain (f rest : List Char) (h : needsQuote f = false) :
    pField (f ++ ',' :: rest) = (f, rest, false) := by
  induction f with
  | nil => simp [pField]
  | cons c f ih =>
      obtain ⟨h1, h2, h3, _, h5⟩ := needsQuote_cons c f h
      simp [pField, h1, h2, h3, ih h5]

theorem pField_plain_end (f rest : List Char) (h : needsQuote f = false) :
    pField (f ++ '\r' :: '\n' :: rest) = (f, rest, true) := by
  induction f with
  | nil => simp [pField]
  | cons c f ih =>
      obtain ⟨h1, h2, h3, _, h5⟩ := needsQuote_cons c f h
      simp [pField, h1, h2, h3, ih h5]

theorem pField_render (f rest : List Char) :
    pField (renderField f ++ ',' :: rest) = (f, rest, false) := by
  by_cases hq : needsQuote f
  · have hsh : renderField f ++ ',' :: rest =
        '"' :: (escInner f ++ '"' :: ',' :: rest) := by
      simp [renderField, hq]
    rw [hsh]
    simp [pField, pQuo_esc f rest]
  · have hsh : renderField f = f := by
      simp [renderField, hq]
    rw [hsh]
    exact pField_plain f rest (by simpa using hq)

theorem pField_render_end (f rest : List Char) :
    pField (renderField f ++ '\r' :: '\n' :: rest) = (f, rest, true) := by
  by_cases hq : needsQuote f
  · have hsh : renderField f ++ '\r' :: '\n' :: rest =
        '"' :: (escInner f ++ '"' :: '\r' :: '\n' :: rest) := by
      simp [renderField, hq]
    rw [hsh]
    simp [pField, pQuo_esc_end f rest]
  · have hsh : renderField f = f := by
      simp [renderField, hq]
    rw [hsh]
    exact pField_plain_end f rest (by simpa using hq)

theorem pRow_render (fs : List (List Char)) (rest : List Char) (fuel : Nat)
    (h : fs ≠ []) (hf : fs.length ≤ fuel) :
    pRow fuel (renderRow fs ++ '\r' :: '\n' :: rest) = (fs, rest) := by
  induction fs generalizing fuel with
  | nil => exact absurd rfl h
  | cons f fs ih =>
      obtain ⟨fu, rfl⟩ : ∃ fu, fuel = fu + 1 := ⟨fuel - 1, by simp at hf; omega⟩
      cases fs with
      | nil => simp [renderRow, pRow, pField_render_end]
      | cons f2 fs2 =>
          have hsh : renderRow (f :: f2 :: fs2) ++ '\r' :: '\n' :: rest =
              renderField f ++ ',' :: (renderRow (f2 :: fs2) ++ '\r' :: '\n' :: rest) := by
            simp [renderRow]
          rw [hsh]
          have hr := pField_render f (renderRow (f2 :: fs2) ++ '\r' :: '\n' :: rest)
          have hrec := ih fu (by simp) (by simp at hf ⊢; omega)
          simp [pRow, hr, hrec]

/-- Fuel needed by `pFile`: one per row plus one per field. -/
def csvWeight (rows : List (List (List Char))) : Nat :=
  (rows.map (fun r => r.length + 1)).sum

theorem pFile_render (rows : List (List (List Char))) (fuel : Nat)
    (h : ∀ r ∈ rows, r ≠ []) (hw : csvWeight rows ≤ fuel) :
    pFile fuel (renderFile rows) = rows := by
  induction rows generalizing fuel with
  | nil => cases fuel <;> simp [renderFile, pFile]
  | cons r rs ih =>
      obtain ⟨fu, rfl⟩ : ∃ fu, fuel = fu + 1 :=
        ⟨fuel - 1, by simp [csvWeight] at hw; omega⟩
      have hsh : renderFile (r :: rs) =
          renderRow r ++ '\r' :: '\n' :: renderFile rs := by
        simp [renderFile]
      have hne : r ≠ [] := h r (by simp)
      have hlen : r.length ≤ fu := by simp [csvWeight] at hw; omega
      have hrow := pRow_render r (renderFile rs) fu hne hlen
      have hrec := ih fu (fun x hx => h x (by simp [hx]))
        (by simp [csvWeight] at hw ⊢; omega)
      rw [hsh]
      simp [pFile, hrow, hrec]

theorem escInner_length (f : List Char) : f.length ≤ (escInner f).length := by
  induction f with
  | nil => simp [escInner]
  | cons c f ih =>
      by_cases h : c = '"' <;> simp [escInner, h] at ih ⊢ <;> omega

theorem renderField_length (f : List Char) : f.length ≤ (renderField f).length := by
  by_cases h : needsQuote f <;> simp [renderField, h]
  have := escInner_length f
  omega

theorem renderRow_length (fs : List (List Char)) (h : fs ≠ []) :
    fs.length ≤ (renderRow fs).length + 1 := by
  induction fs with
  | nil => exact absurd rfl h
  | cons f fs ih =>
      cases fs with
      | nil => simp [renderRow]
      | cons f2 fs2 =>
          have := ih (by simp)
          simp [renderRow] at this ⊢
          omega

theorem renderFile_weight (rows : List (List (List Char)))
    (h : ∀ r ∈ rows, r ≠ []) : csvWeight rows ≤ (renderFile rows).length := by
  induction rows with
  | nil => simp [csvWeight, renderFile]
  | cons r rs ih =>
      have h1 := renderRow_length r (h r (by simp))
      have h2 := ih (fun x hx => h x (by simp [hx]))
      simp [csvWeight, renderFile] at h2 ⊢
      omega

/-- Re-parsing a rendered CSV file recovers the rows exactly (for rows with
at least one field, which is every row the exporter writes). -/
theorem parseCSV_renderFile (rows : List (List (List Char)))
    (h : ∀ r ∈ rows, r ≠ []) : parseCSV (renderFile rows) = rows :=
  pFile_render rows _ h (renderFile_weight rows h)

/-- C4: exporting a nonempty record list and re-parsing the produced file
yields the header row followed by, for every record, exactly its fifteen
projected column values — in particular the six counters and the identifier
are reproduced byte-for-byte. -/
theorem c4_csv_round_trip (videos : List EnrichedRecord) (h : videos ≠ []) :
    ∃ out, export_to_csv videos = some out ∧
      parseCSV out = (export_fields.map String.data) :: videos.map csvRow := by
  refine ⟨renderFile ((export_fields.map String.data) :: videos.map csvRow), ?_, ?_⟩
  · simp [export_to_csv, h]
  · apply parseCSV_renderFile
    intro r hr
    rcases List.mem_cons.mp hr with hr | hr
    · subst hr
      simp [export_fields]
    · obtain ⟨v, _, rfl⟩ := List.mem_map.mp hr
      simp [csvRow]

/-- A record with a delimiter, a quote and a line break embedded in its
title, exercising the CSV quoting rules. -/
def recQuote : EnrichedRecord :=
  { build_enriched env0 1 item0 .fail .fail with title := "a,\"b\"\nc" }

/-- C4 witness: the round trip at a concrete record whose title contains a
comma, a quote and a newline. -/
theorem c4_csv_round_trip_witness :
    ∃ out, export_to_csv [recQuote] = some out ∧
      parseCSV out = (export_fields.map String.data) :: [recQuote].map csvRow :=
  c4_csv_round_trip [recQuote] (by simp)

/-- C10: exporting an empty record list writes nothing at all (no file,
hence no header row), while exporting a nonempty list produces a file that
starts with the header row naming all fifteen exported columns. -/
theorem c10_csv_empty_noop_header :
    export_to_csv [] = none ∧
    ∀ videos : List EnrichedRecord, videos ≠ [] →
      ∃ rest, export_to_csv videos =
        some (renderRow (export_fields.map String.data) ++ '\r' :: '\n' :: rest) := by
  refine ⟨rfl, ?_⟩
  intro videos h
  refine ⟨renderFile (videos.map csvRow), ?_⟩
  simp [export_to_csv, h, renderFile]

/-- C10 witness: header shape at a concrete one-record list. -/
theorem c10_csv_empty_noop_header_witness :
    ∃ rest, export_to_csv [recQuote] =
      some (renderRow (export_fields.map String.data) ++ '\r' :: '\n' :: rest) :=
  c10_csv_empty_noop_header.2 [recQuote] (by simp)

/-- A page environment: page 1 has one item, every later page reports a
non-success code (as the popular endpoint does under rate limiting). -/
def pages0 : Nat → PageResult := fun p =>
  if p = 1 then .resp 0 "ok" [item0] else .resp (-352) "risk ctrl" []

/-- C5 witness: one successful page followed by an error page — the
fetcher returns exactly the first page's items. -/
theorem c5_stop_on_error_code_witness :
    get_popular_videos pages0 50 1 3 =
      ((List.range 1).map (fun _ => [item0])).flatten :=
  c5_stop_on_error_code pages0 50 1 3 1 (fun _ => [item0]) (fun _ => "ok")
    (-352) "risk ctrl" [] (by omega)
    (by
      intro j hj
      interval_cases j
      exact ⟨rfl, by simp⟩)
    rfl (by norm_num)

/-- C6 witness: length bound and concatenation shape at a concrete
environment. -/
theorem c6_length_and_order_witness :
    (get_popular_videos pages0 50 1 3).length ≤ 50 * 3 ∧
    ∃ n ≤ 3, get_popular_videos pages0 50 1 3 =
      ((List.range' 1 n).map (pageItems pages0)).flatten :=
  c6_length_and_order pages0 50 1 3 (by norm_num) (by norm_num) (by norm_num)
    (by norm_num)
    (by
      intro p
      by_cases h : p = 1 <;> simp [pageItems, pages0, h])

/-! ## Decimal digit strings -/

theorem digitChar_isDigit (d : Nat) (h : d < 10) :
    (Nat.digitChar d).isDigit = true := by
  interval_cases d <;> decide

theorem natDigitsAux_all_digit (fuel n : Nat) :
    (natDigitsAux fuel n).all Char.isDigit = true := by
  induction fuel generalizing n with
  | zero => rfl
  | succ fuel ih =>
      by_cases h : n < 10
      · simp [natDigitsAux, h, digitChar_isDigit n h]
      · simp [natDigitsAux, h, ih,
          digitChar_isDigit (n % 10) (Nat.mod_lt n (by norm_num))]

theorem natDigitsAux_ne_nil (fuel n : Nat) (h : fuel ≠ 0) :
    natDigitsAux fuel n ≠ [] := by
  obtain ⟨fu, rfl⟩ : ∃ fu, fuel = fu + 1 := ⟨fuel - 1, by omega⟩
  by_cases h10 : n < 10 <;> simp [natDigitsAux, h10]

/-- `str(n)` of a natural number passes `isdigit`. -/
theorem isDigitStr_pyNatStr (n : Nat) : isDigitStr (pyNatStr n) = true := by
  simp [isDigitStr, pyNatStr, natDigits, natDigitsAux_all_digit,
    natDigitsAux_ne_nil (n + 1) n (by omega)]

/-- `str(i)` of an int passes `isdigit` exactly when the int is
non-negative: negatives print a leading minus sign. -/
theorem isDigitStr_pyIntStr (i : Int) :
    isDigitStr (pyIntStr i) = decide (0 ≤ i) := by
  by_cases h : i < 0
  · simp [pyIntStr, h, isDigitStr]
  · have := isDigitStr_pyNatStr i.natAbs
    simp [pyIntStr, h, this]
    omega

/-- The spec's inclusion test on the value domain: an int parses as a
non-negative integer iff it is non-negative; a string does iff it is a
nonempty decimal-digit literal (the only numeric strings the pipeline
produces).  Stated from the spec's words, for comparison with the code's
`str(...).isdigit()` test. -/
def specNumericPlay : PyVal → Bool
  | .vInt n => decide (0 ≤ n)
  | .vStr s => isDigitStr s

/-- C7, counterexample: for a record list with zero numeric play counts the
reported total is the string "0", not "N/A" (and likewise the average);
only max and min degrade to "N/A". -/
theorem c7_zero_records_total_is_zero :
    (summary_block [recPlay (.vStr "N/A")]).1 = "0" ∧
    (summary_block [recPlay (.vStr "N/A")]).1 ≠ "N/A" := by
  constructor <;> decide

/-- C7 (amended): the summary block aggregates exactly the records whose
play count parses as a non-negative integer; for play counts
[100, 200, "N/A", 300] it reports total 600, average 200 (floor), max 300,
min 100; and with zero numeric play counts max and min are "N/A" while
total and average are reported as 0. -/
theorem c7_summary_semantics :
    (∀ videos : List EnrichedRecord,
      valid_plays videos =
        (videos.filter (fun v => specNumericPlay v.play_count)).map
          (fun v => pyToIntVal v.play_count)) ∧
    summary_block [recPlay (.vStr "100"), recPlay (.vStr "200"),
      recPlay (.vStr "N/A"), recPlay (.vStr "300")] =
      ("600", "200", "300", "100") ∧
    (∀ videos : List EnrichedRecord, valid_plays videos = [] →
      summary_block videos = ("0", "0", "N/A", "N/A")) := by
  refine ⟨?_, by decide, ?_⟩
  · intro videos
    unfold valid_plays
    congr 1
    apply List.filter_congr
    intro v _
    cases hv : v.play_count with
    | vStr s => simp [pyValStr, specNumericPlay]
    | vInt n => simp [pyValStr, specNumericPlay, isDigitStr_pyIntStr]
  · intro videos h
    have h0 : format_number (.vInt 0) = "0" := by decide
    simp [summary_block, h, h0]

/-- C7 witness: the zero-numeric-records clause at a concrete list. -/
theorem c7_summary_semantics_witness :
    summary_block [recPlay (.vStr "N/A")] = ("0", "0", "N/A", "N/A") :=
  c7_summary_semantics.2.2 [recPlay (.vStr "N/A")] (by decide)

end Bili
